import Mathlib

/-!
Shallow embedding of the compliance-record creation workflow of
`src/pages/Messages.tsx` (the `AddComplianceDialog` component): form state,
role-based resolution of the responsible person, storage-bucket provisioning
(`createStorageBucket`), the sequential file-upload loop, record insertion
(`handleSubmit`), success effects (`resetForm`, toast, `onSuccess`,
`onOpenChange(false)`), and the close/cancel controls of the dialog.

External services (object storage, database) are modelled by an environment
of oracles (`Env`); every network interaction the code performs is recorded
as a `NetEvent` in an ordered trace, so that claims about which calls happen,
and in which order, can be stated and proved.
-/

namespace ComplyHub

/-- A file handle as supplied by the file picker: only the name is consulted
by the workflow (`file.name`); the raw bytes are opaque to the logic. -/
structure JSFile where
  name : String
deriving DecidableEq, Repr

/-- A JavaScript `Date` as consumed by `toISOString()`: its UTC calendar and
clock components. `toISOString` renders these fixed-width; the model covers
the simple ISO-8601 range (year 0–9999) used by the date picker. -/
structure JSDate where
  year : Nat
  month : Nat
  day : Nat
  hour : Nat
  minute : Nat
  second : Nat
  ms : Nat
deriving DecidableEq, Repr

/-- Caller identity, from the auth context (`organisationMember`):
`organisation_id`, `full_name`, `email` are nullable in the backing row. -/
structure OrganisationMember where
  organisation_id : Option String
  full_name : Option String
  email : Option String
  role : String
deriving DecidableEq, Repr

/-- The dialog's form state: one field per `useState` hook of
`AddComplianceDialog` that feeds the submission. -/
structure FormState where
  complianceItem : String
  standardClause : String
  complianceStatus : String
  responsiblePerson : String
  nextReviewDate : Option JSDate
  notes : String
  files : List JSFile
deriving DecidableEq, Repr

/-- The row inserted into `compliance_records` (the object literal passed to
`.insert(...)` in `handleSubmit`). -/
structure ComplianceRecord where
  compliance_item : String
  standard_clause : String
  compliance_status : String
  responsible_person : String
  next_review_date : Option String
  notes : Option String
  organisation_id : String
  file_name : Option String
  file_path : Option String
deriving DecidableEq, Repr

/-- One network interaction with the managed backend. `deleteObject` is in
the vocabulary of the storage service but is never issued by this workflow
(there is no compensating rollback). -/
inductive NetEvent where
  | listBuckets
  | createBucket
  | upload (path : String)
  | insertRecord (r : ComplianceRecord)
  | selectStandards (orgId : String)
  | deleteObject (path : String)
deriving DecidableEq, Repr

/-- Oracles for the external services: what the storage bucket listing
returns, whether bucket creation errors, the random storage key generated
for the i-th upload (`Date.now()` + `Math.random()` suffix in the source),
whether the i-th upload errors (with its message), and whether the record
insert errors. -/
structure Env where
  listBucketsFails : Bool
  existingBuckets : List String
  createBucketError : Option String
  keyGen : Nat → String
  uploadResult : Nat → Option String
  insertError : Option String

/-- Everything observable after one `handleSubmit` run: the ordered network
trace, the destructive/success toast descriptions, the inserted row (if
any), how often the `onSuccess` callback fired, whether `onOpenChange(false)`
was invoked, and the form state afterwards. -/
structure SubmitResult where
  trace : List NetEvent
  toastError : Option String
  toastSuccess : Option String
  inserted : Option ComplianceRecord
  onSuccessCalls : Nat
  dialogClosed : Bool
  formAfter : FormState
deriving Repr

/-- JavaScript `a || b` on a nullable string `a`: `null` and `""` are falsy. -/
def jsStrOr (a : Option String) (b : String) : String :=
  match a with
  | some s => if s == "" then b else s
  | none => b

/-- JavaScript `s || null`: the empty string collapses to `null`. -/
def jsOrNull (s : String) : Option String :=
  if s == "" then none else some s

/-- The decimal digit character of `n % 10`. -/
def digitChar (n : Nat) : Char :=
  match n % 10 with
  | 0 => '0' | 1 => '1' | 2 => '2' | 3 => '3' | 4 => '4'
  | 5 => '5' | 6 => '6' | 7 => '7' | 8 => '8' | _ => '9'

/-- Two-digit zero-padded decimal rendering (as a char list), as used for the
fixed-width fields of `Date.prototype.toISOString`. -/
def pad2chars (n : Nat) : List Char := [digitChar (n / 10), digitChar n]

/-- Three-digit zero-padded milliseconds field of `toISOString`. -/
def pad3chars (n : Nat) : List Char := [digitChar (n / 100), digitChar (n / 10), digitChar n]

/-- Four-digit zero-padded year field of `toISOString` (simple ISO range). -/
def pad4chars (n : Nat) : List Char :=
  [digitChar (n / 1000), digitChar (n / 100), digitChar (n / 10), digitChar n]

/-- The `YYYY-MM-DD` part of `toISOString()`. -/
def isoDateChars (d : JSDate) : List Char :=
  pad4chars d.year ++ '-' :: (pad2chars d.month ++ '-' :: pad2chars d.day)

/-- The `HH:MM:SS.mmmZ` part of `toISOString()`. -/
def isoTimeChars (d : JSDate) : List Char :=
  pad2chars d.hour ++ ':' :: (pad2chars d.minute ++ ':' :: (pad2chars d.second ++ '.' :: (pad3chars d.ms ++ ['Z'])))

/-- `Date.prototype.toISOString`: `YYYY-MM-DDTHH:MM:SS.mmmZ` in UTC. -/
def toISOString (d : JSDate) : String :=
  String.mk (isoDateChars d ++ 'T' :: isoTimeChars d)

/-- JavaScript `s.split('T')[0]`: the prefix of `s` before the first `'T'`
(the whole string when `'T'` does not occur). -/
def jsSplitHeadT (s : String) : String :=
  String.mk (s.data.takeWhile (fun c => c != 'T'))

/-- JavaScript `name.split('.').pop()`: the final segment after splitting on
every `'.'` — i.e. the file extension (the whole name when no dot occurs). -/
def lastSegAux (sep : Char) (cur : List Char) : List Char → List Char
  | [] => cur.reverse
  | c :: rest => if c == sep then lastSegAux sep [] rest else lastSegAux sep (c :: cur) rest

/-- The file extension as computed in the upload loop:
`file.name.split('.').pop()`. -/
def jsExt (name : String) : String := String.mk (lastSegAux '.' [] name.data)

/-- `isAdmin` flag of the dialog: `organisationMember?.role === 'admin'`. -/
def isAdmin (m : OrganisationMember) : Bool := m.role == "admin"

/-- `memberName` of the dialog:
`organisationMember?.full_name || organisationMember?.email || ''`. -/
def memberName (m : OrganisationMember) : String :=
  jsStrOr m.full_name (jsStrOr m.email "")

/-- Body of `createStorageBucket` without its `catch`: list the buckets
(`buckets?.some(...)` is falsy when the listing failed), and create the
`compliance-evidence` bucket when it is not present; creation may error. -/
def createStorageBucketBody (env : Env) : List NetEvent × Except String Unit :=
  let buckets : Option (List String) :=
    if env.listBucketsFails then none else some env.existingBuckets
  let bucketExists := (buckets.map (fun bs => bs.contains "compliance-evidence")).getD false
  if bucketExists then
    ([NetEvent.listBuckets], Except.ok ())
  else
    match env.createBucketError with
    | some e => ([NetEvent.listBuckets, NetEvent.createBucket], Except.error e)
    | none => ([NetEvent.listBuckets, NetEvent.createBucket], Except.ok ())

/-- `createStorageBucket`: the surrounding `try/catch` logs any error and
swallows it — the caller always observes plain completion. -/
def createStorageBucket (env : Env) : List NetEvent × Unit :=
  ((createStorageBucketBody env).1, ())

/-- The storage path assigned to the i-th uploaded file:
`${organisation_id}/${key}.${fileExt}` where `key` is the generated
timestamp-plus-random storage key. -/
def storagePathOf (orgId : String) (env : Env) (i : Nat) (f : JSFile) : String :=
  orgId ++ "/" ++ env.keyGen i ++ "." ++ jsExt f.name

/-- The sequential upload loop of `handleSubmit` (`for (const file of files)`,
a no-op when the list is empty, matching the `files.length > 0` guard):
upload each file to its assigned path; on the first failure abort with
`Failed to upload file <name>: <message>`; on success accumulate the original
names and the assigned paths in order. -/
def uploadLoop (orgId : String) (env : Env) : Nat → List JSFile →
    List NetEvent × Except String (List String × List String)
  | _, [] => ([], Except.ok ([], []))
  | i, f :: rest =>
    let filePath := storagePathOf orgId env i f
    match env.uploadResult i with
    | some msg =>
        ([NetEvent.upload filePath],
          Except.error ("Failed to upload file " ++ f.name ++ ": " ++ msg))
    | none =>
        match uploadLoop orgId env (i + 1) rest with
        | (tr, Except.error e) => (NetEvent.upload filePath :: tr, Except.error e)
        | (tr, Except.ok (ns, ps)) =>
            (NetEvent.upload filePath :: tr, Except.ok (f.name :: ns, filePath :: ps))

/-- Initial form state: the initial values of the seven `useState` hooks. -/
def initialFormState : FormState :=
  { complianceItem := ""
    standardClause := ""
    complianceStatus := ""
    responsiblePerson := ""
    nextReviewDate := none
    notes := ""
    files := [] }

/-- `resetForm`: sets every field back to its initial empty/undefined value. -/
def resetForm : FormState := initialFormState

/-- The `next_review_date` field of the insert:
`nextReviewDate?.toISOString().split('T')[0] || null`. -/
def nextReviewDateField (d : Option JSDate) : Option String :=
  match d with
  | none => none
  | some d => jsOrNull (jsSplitHeadT (toISOString d))

/-- The object literal passed to `.insert(...)`, given the resolved
organisation id and the collected `fileNames`/`filePaths` lists. -/
def recordOf (m : OrganisationMember) (form : FormState) (orgId : String)
    (fileNames filePaths : List String) : ComplianceRecord :=
  { compliance_item := form.complianceItem
    standard_clause := form.standardClause
    compliance_status := form.complianceStatus
    responsible_person := if isAdmin m then form.responsiblePerson else memberName m
    next_review_date := nextReviewDateField form.nextReviewDate
    notes := jsOrNull form.notes
    organisation_id := orgId
    file_name := if fileNames.length > 0 then some (String.intercalate ", " fileNames) else none
    file_path := if filePaths.length > 0 then some (String.intercalate ", " filePaths) else none }

/-- `handleSubmit`: guard on `organisation_id`; provision the bucket
(errors swallowed); upload the attached files sequentially; resolve the
responsible person by role; insert exactly one `compliance_records` row; on
success toast (with file count when files were attached), invoke `onSuccess`,
close the dialog, and reset the form. Any thrown error lands in the `catch`
as a destructive toast and leaves the form untouched. -/
def handleSubmit (m : OrganisationMember) (form : FormState) (env : Env) : SubmitResult :=
  match m.organisation_id with
  | none =>
      { trace := []
        toastError := some "Organisation not found"
        toastSuccess := none
        inserted := none
        onSuccessCalls := 0
        dialogClosed := false
        formAfter := form }
  | some orgId =>
      let bucketTrace := (createStorageBucket env).1
      match uploadLoop orgId env 0 form.files with
      | (uploadTrace, Except.error msg) =>
          { trace := bucketTrace ++ uploadTrace
            toastError := some msg
            toastSuccess := none
            inserted := none
            onSuccessCalls := 0
            dialogClosed := false
            formAfter := form }
      | (uploadTrace, Except.ok (fileNames, filePaths)) =>
          -- For members, use their name; for admins, use selected person
          let finalResponsiblePerson := if isAdmin m then form.responsiblePerson else memberName m
          if finalResponsiblePerson == "" then
            { trace := bucketTrace ++ uploadTrace
              toastError := some "Responsible person is required"
              toastSuccess := none
              inserted := none
              onSuccessCalls := 0
              dialogClosed := false
              formAfter := form }
          else
            let record : ComplianceRecord := recordOf m form orgId fileNames filePaths
            match env.insertError with
            | some msg =>
                { trace := bucketTrace ++ uploadTrace ++ [NetEvent.insertRecord record]
                  toastError := some ("Database error: " ++ msg)
                  toastSuccess := none
                  inserted := none
                  onSuccessCalls := 0
                  dialogClosed := false
                  formAfter := form }
            | none =>
                { trace := bucketTrace ++ uploadTrace ++ [NetEvent.insertRecord record]
                  toastError := none
                  toastSuccess := some ("Compliance record added successfully" ++
                    (if form.files.length > 0 then " with " ++ toString form.files.length ++ " file(s)" else ""))
                  inserted := some record
                  onSuccessCalls := 1
                  dialogClosed := true
                  formAfter := resetForm }

/-- The network activity of `fetchStandards`: an early `return` when the
caller has no `organisation_id`, otherwise one scoped select. -/
def fetchStandards (m : OrganisationMember) : List NetEvent :=
  match m.organisation_id with
  | none => []
  | some orgId => [NetEvent.selectStandards orgId]

/-- Guard of the `useEffect` that triggers `fetchStandards`:
`open && organisationMember?.organisation_id`. -/
def standardsEffectRuns (isOpen : Bool) (m : OrganisationMember) : Bool :=
  isOpen && m.organisation_id.isSome

/-- The control rendered for the responsible-person field. -/
inductive RespControl where
  | rosterSelector
  | readonlySelfInput (value : String)
deriving DecidableEq, Repr

/-- The role-conditional rendering of the responsible-person field:
a roster `Select` for admins, a read-only `Input` bound to `memberName`
otherwise. -/
def responsiblePersonControl (m : OrganisationMember) : RespControl :=
  if isAdmin m then RespControl.rosterSelector
  else RespControl.readonlySelfInput (memberName m)

/-- The dialog's component-level state relevant to closing: the `open` flag
(owned by the parent, driven through `onOpenChange`) and the form state. -/
structure DialogState where
  dialogOpen : Bool
  form : FormState
deriving DecidableEq, Repr

/-- The header close (X) button: `onClick={() => onOpenChange(false)}`. -/
def closeButtonClick (s : DialogState) : DialogState :=
  { s with dialogOpen := false }

/-- The Cancel button: `onClick={() => onOpenChange(false)}`. -/
def cancelButtonClick (s : DialogState) : DialogState :=
  { s with dialogOpen := false }

/-- The storage path each file of the list receives, starting at upload
index `i`: the specification-side description of the paths produced by the
upload loop. -/
def assignedPaths (orgId : String) (env : Env) : Nat → List JSFile → List String
  | _, [] => []
  | i, f :: rest => storagePathOf orgId env i f :: assignedPaths orgId env (i + 1) rest

/-- Recogniser for upload events in a network trace. -/
def isUploadEvent : NetEvent → Bool
  | NetEvent.upload _ => true
  | _ => false

/-- Recogniser for an ISO-8601 calendar date string with no time component:
exactly `DDDD-DD-DD` with decimal digits. -/
def isISOCalendarDate (s : String) : Bool :=
  match s.data with
  | [y1, y2, y3, y4, s1, m1, m2, s2, d1, d2] =>
      y1.isDigit && y2.isDigit && y3.isDigit && y4.isDigit &&
      (s1 == '-') && m1.isDigit && m2.isDigit && (s2 == '-') && d1.isDigit && d2.isDigit
  | _ => false

/-- The row `handleSubmit` inserts when provisioning, uploads and the person
check all pass: named here so several theorems can refer to it. -/
def successRecord (m : OrganisationMember) (form : FormState) (env : Env) (orgId : String) :
    ComplianceRecord :=
  recordOf m form orgId (form.files.map JSFile.name) (assignedPaths orgId env 0 form.files)

/-- An environment in which every storage and database call succeeds. -/
def envAllOk : Env :=
  { listBucketsFails := false
    existingBuckets := ["compliance-evidence"]
    createBucketError := none
    keyGen := fun i => "key" ++ toString i
    uploadResult := fun _ => none
    insertError := none }

/-- An environment in which the second upload (index 1) fails. -/
def envSecondUploadFails : Env :=
  { envAllOk with uploadResult := fun i => if i == 1 then some "quota exceeded" else none }

/-- An environment in which bucket creation errors (and the bucket listing
shows no `compliance-evidence` bucket). -/
def envBucketCreateFails : Env :=
  { envAllOk with existingBuckets := [], createBucketError := some "permission denied" }

/-- An admin caller with an organisation. -/
def adminAda : OrganisationMember :=
  { organisation_id := some "org-1"
    full_name := some "Ada"
    email := some "ada@example.com"
    role := "admin" }

/-- A non-admin caller with an organisation. -/
def memberBob : OrganisationMember :=
  { organisation_id := some "org-1"
    full_name := some "Bob"
    email := some "bob@example.com"
    role := "member" }

/-- A caller whose identity carries no organisation id. -/
def memberNoOrg : OrganisationMember :=
  { organisation_id := none
    full_name := some "Cam"
    email := some "cam@example.com"
    role := "member" }

/-- A filled form with no responsible person selected and one attached file. -/
def formOneFileNoPerson : FormState :=
  { complianceItem := "Fire safety audit"
    standardClause := "1.1"
    complianceStatus := "Compliant"
    responsiblePerson := ""
    nextReviewDate := none
    notes := ""
    files := [⟨"evidence.pdf"⟩] }

/-- A filled form with two attached files and a responsible person. -/
def formTwoFiles : FormState :=
  { complianceItem := "Fire safety audit"
    standardClause := "1.1"
    complianceStatus := "Compliant"
    responsiblePerson := "Ada"
    nextReviewDate := none
    notes := ""
    files := [⟨"a.pdf"⟩, ⟨"b.docx"⟩] }

/-- A filled form with three attached files. -/
def formThreeFiles : FormState :=
  { formTwoFiles with files := [⟨"a.pdf"⟩, ⟨"b.docx"⟩, ⟨"c.png"⟩] }

/-- A filled form with no files, a picked review date and nonempty notes. -/
def formWithDate : FormState :=
  { formTwoFiles with
    files := []
    nextReviewDate := some ⟨2026, 3, 7, 13, 5, 9, 42⟩
    notes := "check extinguishers" }

/-- A dialog state holding a filled, unsubmitted form. -/
def filledDialog : DialogState :=
  { dialogOpen := true
    form := formOneFileNoPerson }

section Lemmas

/-- takeWhile over a list whose prefix all satisfies `p`, followed by an
element refuting `p`, returns exactly that prefix. -/
theorem takeWhile_append_stop (p : Char → Bool) (c : Char) (l₂ : List Char) :
    ∀ l₁ : List Char, (∀ x ∈ l₁, p x = true) → p c = false →
      (l₁ ++ c :: l₂).takeWhile p = l₁
  | [], _, hc => by simp [List.takeWhile, hc]
  | a :: t, h, hc => by
      have ha : p a = true := h a (by simp)
      have ih := takeWhile_append_stop p c l₂ t (fun x hx => h x (by simp [hx])) hc
      simp [List.takeWhile, ha, ih]

theorem digitChar_isDigit (n : Nat) : (digitChar n).isDigit = true := by
  have h : n % 10 = 0 ∨ n % 10 = 1 ∨ n % 10 = 2 ∨ n % 10 = 3 ∨ n % 10 = 4 ∨
      n % 10 = 5 ∨ n % 10 = 6 ∨ n % 10 = 7 ∨ n % 10 = 8 ∨ n % 10 = 9 := by omega
  unfold digitChar
  rcases h with h | h | h | h | h | h | h | h | h | h <;> rw [h] <;> decide

theorem digitChar_ne_T (n : Nat) : (digitChar n != 'T') = true := by
  have h : n % 10 = 0 ∨ n % 10 = 1 ∨ n % 10 = 2 ∨ n % 10 = 3 ∨ n % 10 = 4 ∨
      n % 10 = 5 ∨ n % 10 = 6 ∨ n % 10 = 7 ∨ n % 10 = 8 ∨ n % 10 = 9 := by omega
  unfold digitChar
  rcases h with h | h | h | h | h | h | h | h | h | h <;> rw [h] <;> decide

theorem isoDateChars_ne_T (d : JSDate) : ∀ x ∈ isoDateChars d, (x != 'T') = true := by
  intro x hx
  simp [isoDateChars, pad4chars, pad2chars] at hx
  rcases hx with h | h | h | h | h | h | h | h | h | h <;> subst h <;>
    first
    | exact digitChar_ne_T _
    | decide

/-- The date part extracted by `split('T')[0]` from `toISOString` is exactly
the `YYYY-MM-DD` prefix. -/
theorem jsSplitHeadT_toISOString (d : JSDate) :
    jsSplitHeadT (toISOString d) = String.mk (isoDateChars d) := by
  unfold jsSplitHeadT toISOString
  congr 1
  exact takeWhile_append_stop _ 'T' (isoTimeChars d) (isoDateChars d) (isoDateChars_ne_T d) (by decide)

theorem isISOCalendarDate_isoDateChars (d : JSDate) :
    isISOCalendarDate (String.mk (isoDateChars d)) = true := by
  simp [isISOCalendarDate, isoDateChars, pad4chars, pad2chars, digitChar_isDigit]

theorem isoDateChars_ne_nil (d : JSDate) : String.mk (isoDateChars d) ≠ "" := by
  simp [isoDateChars, pad4chars, String.ext_iff]

theorem createStorageBucket_events (env : Env) :
    ∀ e ∈ (createStorageBucket env).1, e = NetEvent.listBuckets ∨ e = NetEvent.createBucket := by
  intro e he
  cases hl : env.listBucketsFails <;> cases hc : env.createBucketError <;>
    simp [createStorageBucket, createStorageBucketBody, hl, hc] at he <;>
    (try split at he) <;> (try simp at he) <;> tauto

theorem assignedPaths_length (orgId : String) (env : Env) :
    ∀ (i : Nat) (files : List JSFile), (assignedPaths orgId env i files).length = files.length
  | _, [] => rfl
  | i, _ :: rest => by simp [assignedPaths, assignedPaths_length orgId env (i + 1) rest]

theorem assignedPaths_getElem (orgId : String) (env : Env) :
    ∀ (files : List JSFile) (i k : Nat),
      (assignedPaths orgId env i files)[k]? = (files[k]?).map (fun f => storagePathOf orgId env (i + k) f)
  | [], i, k => by simp [assignedPaths]
  | f :: rest, i, 0 => by simp [assignedPaths]
  | f :: rest, i, k + 1 => by
      have h : i + 1 + k = i + (k + 1) := by omega
      simp [assignedPaths, assignedPaths_getElem orgId env rest (i + 1) k, h]

/-- When every upload in range succeeds, the loop uploads each file to its
assigned path and returns the in-order name and path lists. -/
theorem uploadLoop_ok (orgId : String) (env : Env) :
    ∀ (files : List JSFile) (i : Nat),
      (∀ j, j < files.length → env.uploadResult (i + j) = none) →
      uploadLoop orgId env i files =
        ((assignedPaths orgId env i files).map NetEvent.upload,
          Except.ok (files.map JSFile.name, assignedPaths orgId env i files))
  | [], _, _ => by simp [uploadLoop, assignedPaths]
  | f :: rest, i, h => by
      have h0 : env.uploadResult i = none := by
        have := h 0 (by simp)
        simpa using this
      have ih := uploadLoop_ok orgId env rest (i + 1) (fun j hj => by
        have := h (j + 1) (by simpa using Nat.succ_lt_succ hj)
        have e : i + (j + 1) = i + 1 + j := by omega
        rwa [e] at this)
      simp [uploadLoop, h0, ih, assignedPaths]

/-- When the uploads of the prefix succeed and the next upload fails, the
loop uploads exactly the prefix plus the failing file, and aborts with an
error naming that file and the underlying cause. -/
theorem uploadLoop_err (orgId : String) (env : Env) (msg : String) :
    ∀ (pre : List JSFile) (f : JSFile) (post : List JSFile) (i : Nat),
      (∀ j, j < pre.length → env.uploadResult (i + j) = none) →
      env.uploadResult (i + pre.length) = some msg →
      uploadLoop orgId env i (pre ++ f :: post) =
        ((assignedPaths orgId env i (pre ++ [f])).map NetEvent.upload,
          Except.error ("Failed to upload file " ++ f.name ++ ": " ++ msg))
  | [], f, post, i, _, hf => by
      have hf' : env.uploadResult i = some msg := by simpa using hf
      simp [uploadLoop, hf', assignedPaths]
  | p :: pre, f, post, i, h, hf => by
      have h0 : env.uploadResult i = none := by
        have := h 0 (by simp)
        simpa using this
      have ih := uploadLoop_err orgId env msg pre f post (i + 1) (fun j hj => by
        have := h (j + 1) (by simpa using Nat.succ_lt_succ hj)
        have e : i + (j + 1) = i + 1 + j := by omega
        rwa [e] at this)
        (by
          have e : i + (p :: pre).length = i + 1 + pre.length := by simp; omega
          rwa [e] at hf)
      simp [uploadLoop, h0, ih, assignedPaths]

theorem filter_upload_map (l : List String) :
    (l.map NetEvent.upload).filter isUploadEvent = l.map NetEvent.upload := by
  induction l with
  | nil => rfl
  | cons a t ih => simp [isUploadEvent, ih]

theorem uploadLoop_env_congr (orgId : String) (env env' : Env)
    (hk : env'.keyGen = env.keyGen) (hu : env'.uploadResult = env.uploadResult) :
    ∀ (files : List JSFile) (i : Nat),
      uploadLoop orgId env' i files = uploadLoop orgId env i files
  | [], _ => rfl
  | f :: rest, i => by
      have ih := uploadLoop_env_congr orgId env env' hk hu rest (i + 1)
      simp [uploadLoop, storagePathOf, hk, hu, ih]

theorem assignedPaths_env_congr (orgId : String) (env env' : Env)
    (hk : env'.keyGen = env.keyGen) :
    ∀ (i : Nat) (files : List JSFile),
      assignedPaths orgId env' i files = assignedPaths orgId env i files
  | _, [] => rfl
  | i, f :: rest => by
      simp [assignedPaths, storagePathOf, hk, assignedPaths_env_congr orgId env env' hk (i + 1) rest]

/-- Full characterisation of a successful `handleSubmit` run. -/
theorem handleSubmit_success (m : OrganisationMember) (form : FormState) (env : Env)
    (orgId : String)
    (h1 : m.organisation_id = some orgId)
    (h2 : ∀ j, j < form.files.length → env.uploadResult j = none)
    (h3 : (if isAdmin m then form.responsiblePerson else memberName m) ≠ "")
    (h4 : env.insertError = none) :
    handleSubmit m form env =
      { trace := (createStorageBucket env).1 ++
          (assignedPaths orgId env 0 form.files).map NetEvent.upload ++
          [NetEvent.insertRecord (successRecord m form env orgId)]
        toastError := none
        toastSuccess := some ("Compliance record added successfully" ++
          (if form.files.length > 0 then " with " ++ toString form.files.length ++ " file(s)" else ""))
        inserted := some (successRecord m form env orgId)
        onSuccessCalls := 1
        dialogClosed := true
        formAfter := resetForm } := by
  have hup := uploadLoop_ok orgId env form.files 0 (fun j hj => by simpa using h2 j hj)
  simp [handleSubmit, h1, hup, h3, h4, successRecord]

/-- No insert event occurs in a trace made of provisioning events followed by
upload events. -/
theorem insertRecord_not_mem (env : Env) (l : List String) (r : ComplianceRecord) :
    NetEvent.insertRecord r ∉ (createStorageBucket env).1 ++ List.map NetEvent.upload l := by
  intro h
  rcases List.mem_append.mp h with h | h
  · rcases createStorageBucket_events env _ h with h' | h' <;> simp at h'
  · rcases List.mem_map.mp h with ⟨p, _, hp⟩
    simp at hp

/-- No delete event occurs in a trace made of provisioning events followed by
upload events. -/
theorem deleteObject_not_mem (env : Env) (l : List String) (p : String) :
    NetEvent.deleteObject p ∉ (createStorageBucket env).1 ++ List.map NetEvent.upload l := by
  intro h
  rcases List.mem_append.mp h with h | h
  · rcases createStorageBucket_events env _ h with h' | h' <;> simp at h'
  · rcases List.mem_map.mp h with ⟨q, _, hq⟩
    simp at hq

theorem createStorageBucket_no_uploads (env : Env) :
    (createStorageBucket env).1.filter isUploadEvent = [] := by
  rw [List.filter_eq_nil_iff]
  intro e he
  rcases createStorageBucket_events env e he with h | h <;> subst h <;> decide

/-- Whenever the caller has an organisation id, the trace of `handleSubmit`
starts with the provisioning trace, immediately followed by the full trace of
the upload phase. -/
theorem handleSubmit_trace_shape (m : OrganisationMember) (form : FormState) (env : Env)
    (orgId : String) (h0 : m.organisation_id = some orgId) :
    ∃ rest, (handleSubmit m form env).trace =
      (createStorageBucket env).1 ++ ((uploadLoop orgId env 0 form.files).1 ++ rest) := by
  rcases hul : uploadLoop orgId env 0 form.files with ⟨tr, res⟩
  cases res with
  | error e => exact ⟨[], by simp [handleSubmit, h0, hul]⟩
  | ok pr =>
      rcases pr with ⟨ns, ps⟩
      by_cases hfp : ((if isAdmin m then form.responsiblePerson else memberName m) == "") = true
      · exact ⟨[], by simp [handleSubmit, h0, hul, hfp]⟩
      · cases hie : env.insertError with
        | some msg =>
            exact ⟨[NetEvent.insertRecord (recordOf m form orgId ns ps)],
              by simp [handleSubmit, h0, hul, hfp, hie]⟩
        | none =>
            exact ⟨[NetEvent.insertRecord (recordOf m form orgId ns ps)],
              by simp [handleSubmit, h0, hul, hfp, hie]⟩

end Lemmas

/-- C1 (counterexample): an admin submission attempt with no responsible
person selected IS rejected with "Responsible person is required", but not
before any network call — at that point the trace already contains the
bucket-provisioning call and a file upload. -/
theorem C1_counterexample :
    (handleSubmit adminAda formOneFileNoPerson envAllOk).toastError =
        some "Responsible person is required" ∧
    NetEvent.listBuckets ∈ (handleSubmit adminAda formOneFileNoPerson envAllOk).trace ∧
    NetEvent.upload "org-1/key0.pdf" ∈ (handleSubmit adminAda formOneFileNoPerson envAllOk).trace := by
  decide

/-- C1 (amended): for every submission attempt in which the caller role is
admin and no responsible person has been selected (and the uploads, if any,
succeed), the submission is rejected with a "Responsible person is required"
error before the record insert — no row is inserted and no insert call is
made — although bucket provisioning and the file uploads have already been
attempted. -/
theorem C1_person_required_before_insert (m : OrganisationMember) (form : FormState)
    (env : Env) (orgId : String)
    (h1 : m.organisation_id = some orgId)
    (h2 : isAdmin m = true)
    (h3 : form.responsiblePerson = "")
    (h4 : ∀ j, j < form.files.length → env.uploadResult j = none) :
    (handleSubmit m form env).toastError = some "Responsible person is required" ∧
    (handleSubmit m form env).inserted = none ∧
    ∀ r, NetEvent.insertRecord r ∉ (handleSubmit m form env).trace := by
  have hup := uploadLoop_ok orgId env form.files 0 (fun j hj => by simpa using h4 j hj)
  have htr : (handleSubmit m form env).trace =
      (createStorageBucket env).1 ++ (assignedPaths orgId env 0 form.files).map NetEvent.upload := by
    simp [handleSubmit, h1, hup, h2, h3]
  refine ⟨?_, ?_, ?_⟩
  · simp [handleSubmit, h1, hup, h2, h3]
  · simp [handleSubmit, h1, hup, h2, h3]
  · intro r
    rw [htr]
    exact insertRecord_not_mem env _ r

/-- C1 (amended, witness): the amended claim at a concrete admin submission
with one attached file. -/
theorem C1_person_required_before_insert_witness :
    (handleSubmit adminAda formOneFileNoPerson envAllOk).toastError =
        some "Responsible person is required" ∧
    (handleSubmit adminAda formOneFileNoPerson envAllOk).inserted = none := by
  have h := C1_person_required_before_insert adminAda formOneFileNoPerson envAllOk "org-1"
    rfl (by decide) rfl (by decide)
  exact ⟨h.1, h.2.1⟩

/-- C2: when the caller identity has no organisation id, the submission is
rejected with "Organisation not found" and the trace is empty — no
provisioning, upload or insert call is made; `fetchStandards` issues no
select either, and the effect that would trigger it does not fire. -/
theorem C2_org_missing (m : OrganisationMember) (form : FormState) (env : Env)
    (h : m.organisation_id = none) :
    (handleSubmit m form env).toastError = some "Organisation not found" ∧
    (handleSubmit m form env).trace = [] ∧
    (handleSubmit m form env).inserted = none ∧
    fetchStandards m = [] ∧
    ∀ b, standardsEffectRuns b m = false := by
  refine ⟨?_, ?_, ?_, ?_, ?_⟩ <;>
    simp [handleSubmit, fetchStandards, standardsEffectRuns, h]

/-- C2 (witness): the theorem at a concrete caller without organisation. -/
theorem C2_org_missing_witness :
    (handleSubmit memberNoOrg formTwoFiles envAllOk).toastError = some "Organisation not found" ∧
    (handleSubmit memberNoOrg formTwoFiles envAllOk).trace = [] ∧
    fetchStandards memberNoOrg = [] := by
  have h := C2_org_missing memberNoOrg formTwoFiles envAllOk rfl
  exact ⟨h.1, h.2.1, h.2.2.2.1⟩

/-- C3: on every successful submission, the inserted row has null `file_name`
and `file_path` when no file was attached; with files attached (all uploads
succeeding) the two columns are comma-joined lists of the same count, where
entry i of `file_name` is the i-th selected file's original name and entry i
of `file_path` is the storage path assigned to that same file, in original
selection order. -/
theorem C3_file_columns (m : OrganisationMember) (form : FormState) (env : Env)
    (orgId : String)
    (h1 : m.organisation_id = some orgId)
    (h2 : ∀ j, j < form.files.length → env.uploadResult j = none)
    (h3 : (if isAdmin m then form.responsiblePerson else memberName m) ≠ "")
    (h4 : env.insertError = none) :
    ∃ r, (handleSubmit m form env).inserted = some r ∧
      (form.files = [] → r.file_name = none ∧ r.file_path = none) ∧
      (form.files ≠ [] →
        r.file_name = some (String.intercalate ", " (form.files.map JSFile.name)) ∧
        r.file_path = some (String.intercalate ", " (assignedPaths orgId env 0 form.files)) ∧
        (form.files.map JSFile.name).length = form.files.length ∧
        (assignedPaths orgId env 0 form.files).length = form.files.length ∧
        (∀ k : Nat, (form.files.map JSFile.name)[k]? = (form.files[k]?).map JSFile.name) ∧
        (∀ k : Nat, (assignedPaths orgId env 0 form.files)[k]? =
          (form.files[k]?).map (fun f => storagePathOf orgId env k f))) := by
  refine ⟨successRecord m form env orgId, ?_, ?_, ?_⟩
  · simp [handleSubmit_success m form env orgId h1 h2 h3 h4]
  · intro hnil
    simp [successRecord, recordOf, hnil, assignedPaths]
  · intro hne
    have hlen : 0 < form.files.length := List.length_pos.mpr hne
    have hplen := assignedPaths_length orgId env 0 form.files
    refine ⟨?_, ?_, by simp, hplen, ?_, ?_⟩
    · simp [successRecord, recordOf, hlen]
    · simp [successRecord, recordOf, hplen, hlen]
    · intro k
      simp
    · intro k
      simpa using assignedPaths_getElem orgId env form.files 0 k

/-- C3 (witness): a concrete successful submission with two attached files
yields the comma-joined columns in selection order. -/
theorem C3_file_columns_witness :
    ∃ r, (handleSubmit memberBob formTwoFiles envAllOk).inserted = some r ∧
      r.file_name = some "a.pdf, b.docx" ∧
      r.file_path = some "org-1/key0.pdf, org-1/key1.docx" := by
  obtain ⟨r, hr, -, hc⟩ :=
    C3_file_columns memberBob formTwoFiles envAllOk "org-1" rfl (by decide) (by decide) rfl
  obtain ⟨hn, hp, -⟩ := hc (by decide)
  exact ⟨r, hr, hn.trans (by decide), hp.trans (by decide)⟩

/-- C4: a submission by a non-admin caller always persists the caller's own
name (or email when the full name is absent) as `responsible_person`,
regardless of the responsible-person form field; and the roster selector is
not offered — the field renders as a read-only input bound to that name. -/
theorem C4_nonadmin_responsible (m : OrganisationMember) (form : FormState) (env : Env)
    (h : m.role ≠ "admin") :
    (∀ r, (handleSubmit m form env).inserted = some r →
      r.responsible_person = memberName m) ∧
    responsiblePersonControl m = RespControl.readonlySelfInput (memberName m) := by
  have hAdm : isAdmin m = false := by simp [isAdmin, h]
  constructor
  · intro r hr
    cases hm : m.organisation_id with
    | none => simp [handleSubmit, hm] at hr
    | some orgId =>
        rcases hu : uploadLoop orgId env 0 form.files with ⟨tr, res⟩
        cases res with
        | error e => simp [handleSubmit, hm, hu] at hr
        | ok pr =>
            rcases pr with ⟨ns, ps⟩
            simp only [handleSubmit, hm, hu, hAdm, Bool.false_eq_true, if_false] at hr
            split at hr
            · simp at hr
            · split at hr
              · simp at hr
              · simp at hr
                rw [← hr]
                simp [recordOf, hAdm]
  · simp [responsiblePersonControl, hAdm]

/-- C4 (witness): the theorem at a concrete non-admin caller whose form field
holds a different name. -/
theorem C4_nonadmin_responsible_witness :
    (∀ r, (handleSubmit memberBob formTwoFiles envAllOk).inserted = some r →
      r.responsible_person = memberName memberBob) ∧
    responsiblePersonControl memberBob = RespControl.readonlySelfInput (memberName memberBob) :=
  C4_nonadmin_responsible memberBob formTwoFiles envAllOk (by decide)

/-- C5: when the upload of file K fails (files before it succeeding), the
submission aborts: the surfaced error names file K and the underlying cause,
no compliance record is inserted (no insert call happens), exactly the first
K uploads were attempted (so files K+1..N were not), and no stored object is
deleted — the completed uploads are not rolled back. -/
theorem C5_upload_failure (m : OrganisationMember) (form : FormState) (env : Env)
    (orgId : String) (pre : List JSFile) (f : JSFile) (post : List JSFile) (msg : String)
    (h1 : m.organisation_id = some orgId)
    (h2 : form.files = pre ++ f :: post)
    (h3 : ∀ j, j < pre.length → env.uploadResult j = none)
    (h4 : env.uploadResult pre.length = some msg) :
    (handleSubmit m form env).toastError =
        some ("Failed to upload file " ++ f.name ++ ": " ++ msg) ∧
    (handleSubmit m form env).inserted = none ∧
    (handleSubmit m form env).trace.filter isUploadEvent =
      (assignedPaths orgId env 0 (pre ++ [f])).map NetEvent.upload ∧
    (∀ r, NetEvent.insertRecord r ∉ (handleSubmit m form env).trace) ∧
    (∀ p, NetEvent.deleteObject p ∉ (handleSubmit m form env).trace) := by
  have hup := uploadLoop_err orgId env msg pre f post 0
    (fun j hj => by simpa using h3 j hj) (by simpa using h4)
  have htr : (handleSubmit m form env).trace =
      (createStorageBucket env).1 ++ (assignedPaths orgId env 0 (pre ++ [f])).map NetEvent.upload := by
    simp [handleSubmit, h1, h2, hup]
  refine ⟨?_, ?_, ?_, ?_, ?_⟩
  · simp [handleSubmit, h1, h2, hup]
  · simp [handleSubmit, h1, h2, hup]
  · rw [htr, List.filter_append, createStorageBucket_no_uploads, filter_upload_map]
    simp
  · intro r
    rw [htr]
    exact insertRecord_not_mem env _ r
  · intro p
    rw [htr]
    exact deleteObject_not_mem env _ p

/-- C5 (witness): a concrete submission with three files whose second upload
fails — the first upload happened, the third was never attempted, nothing was
inserted or deleted. -/
theorem C5_upload_failure_witness :
    (handleSubmit memberBob formThreeFiles envSecondUploadFails).toastError =
        some "Failed to upload file b.docx: quota exceeded" ∧
    (handleSubmit memberBob formThreeFiles envSecondUploadFails).inserted = none ∧
    (handleSubmit memberBob formThreeFiles envSecondUploadFails).trace.filter isUploadEvent =
      [NetEvent.upload "org-1/key0.pdf", NetEvent.upload "org-1/key1.docx"] := by
  have h := C5_upload_failure memberBob formThreeFiles envSecondUploadFails "org-1"
    [⟨"a.pdf"⟩] ⟨"b.docx"⟩ [⟨"c.png"⟩] "quota exceeded" rfl (by decide) (by decide) (by decide)
  exact ⟨h.1, h.2.1, h.2.2.1.trans (by decide)⟩

/-- C6: errors during storage provisioning are swallowed — with the caller's
organisation present, the trace always continues past provisioning with the
full upload phase, and every submission outcome (toasts, inserted row,
callback count, dialog closing, form state) is identical under any two
environments that differ only in their provisioning behaviour. -/
theorem C6_provisioning_swallowed (m : OrganisationMember) (form : FormState)
    (env env' : Env) (orgId : String)
    (h0 : m.organisation_id = some orgId)
    (hk : env'.keyGen = env.keyGen)
    (hu : env'.uploadResult = env.uploadResult)
    (hi : env'.insertError = env.insertError) :
    (∃ rest, (handleSubmit m form env).trace =
      (createStorageBucket env).1 ++ ((uploadLoop orgId env 0 form.files).1 ++ rest)) ∧
    (handleSubmit m form env').toastError = (handleSubmit m form env).toastError ∧
    (handleSubmit m form env').toastSuccess = (handleSubmit m form env).toastSuccess ∧
    (handleSubmit m form env').inserted = (handleSubmit m form env).inserted ∧
    (handleSubmit m form env').onSuccessCalls = (handleSubmit m form env).onSuccessCalls ∧
    (handleSubmit m form env').dialogClosed = (handleSubmit m form env).dialogClosed ∧
    (handleSubmit m form env').formAfter = (handleSubmit m form env).formAfter := by
  refine ⟨handleSubmit_trace_shape m form env orgId h0, ?_⟩
  have hcongr := uploadLoop_env_congr orgId env env' hk hu form.files 0
  rcases hul : uploadLoop orgId env 0 form.files with ⟨tr, res⟩
  rw [hul] at hcongr
  cases res with
  | error e =>
      refine ⟨?_, ?_, ?_, ?_, ?_, ?_⟩ <;> simp [handleSubmit, h0, hul, hcongr]
  | ok pr =>
      rcases pr with ⟨ns, ps⟩
      by_cases hfp : ((if isAdmin m then form.responsiblePerson else memberName m) == "") = true
      · refine ⟨?_, ?_, ?_, ?_, ?_, ?_⟩ <;> simp [handleSubmit, h0, hul, hcongr, hfp]
      · cases hie : env.insertError with
        | some msg =>
            have hie' : env'.insertError = some msg := by rw [hi, hie]
            refine ⟨?_, ?_, ?_, ?_, ?_, ?_⟩ <;>
              simp [handleSubmit, h0, hul, hcongr, hfp, hie, hie']
        | none =>
            have hie' : env'.insertError = none := by rw [hi, hie]
            refine ⟨?_, ?_, ?_, ?_, ?_, ?_⟩ <;>
              simp [handleSubmit, h0, hul, hcongr, hfp, hie, hie']

/-- C6 (witness): the theorem comparing the all-ok environment with one in
which the bucket is absent and its creation errors. -/
theorem C6_provisioning_swallowed_witness :
    (handleSubmit memberBob formTwoFiles envBucketCreateFails).toastError =
        (handleSubmit memberBob formTwoFiles envAllOk).toastError ∧
    (handleSubmit memberBob formTwoFiles envBucketCreateFails).inserted =
        (handleSubmit memberBob formTwoFiles envAllOk).inserted ∧
    (handleSubmit memberBob formTwoFiles envBucketCreateFails).onSuccessCalls =
        (handleSubmit memberBob formTwoFiles envAllOk).onSuccessCalls := by
  have h := C6_provisioning_swallowed memberBob formTwoFiles envAllOk envBucketCreateFails
    "org-1" rfl rfl rfl rfl
  exact ⟨h.2.1, h.2.2.2.1, h.2.2.2.2.1⟩

/-- C7: after every successful submission the form state is reset to its
initial empty/undefined values (every field and the file selection), the
success callback fires exactly once, the dialog is closed, and the success
toast includes the file count whenever files were attached. -/
theorem C7_success_effects (m : OrganisationMember) (form : FormState) (env : Env)
    (orgId : String)
    (h1 : m.organisation_id = some orgId)
    (h2 : ∀ j, j < form.files.length → env.uploadResult j = none)
    (h3 : (if isAdmin m then form.responsiblePerson else memberName m) ≠ "")
    (h4 : env.insertError = none) :
    (handleSubmit m form env).formAfter = initialFormState ∧
    (handleSubmit m form env).formAfter.complianceItem = "" ∧
    (handleSubmit m form env).formAfter.standardClause = "" ∧
    (handleSubmit m form env).formAfter.complianceStatus = "" ∧
    (handleSubmit m form env).formAfter.responsiblePerson = "" ∧
    (handleSubmit m form env).formAfter.nextReviewDate = none ∧
    (handleSubmit m form env).formAfter.notes = "" ∧
    (handleSubmit m form env).formAfter.files = [] ∧
    (handleSubmit m form env).onSuccessCalls = 1 ∧
    (handleSubmit m form env).dialogClosed = true ∧
    (handleSubmit m form env).toastSuccess =
      some ("Compliance record added successfully" ++
        (if form.files.length > 0 then
          " with " ++ toString form.files.length ++ " file(s)" else "")) ∧
    (form.files ≠ [] → (handleSubmit m form env).toastSuccess =
      some ("Compliance record added successfully" ++
        (" with " ++ toString form.files.length ++ " file(s)"))) := by
  have hs := handleSubmit_success m form env orgId h1 h2 h3 h4
  refine ⟨?_, ?_, ?_, ?_, ?_, ?_, ?_, ?_, ?_, ?_, ?_, ?_⟩ <;>
    simp [hs, resetForm, initialFormState]
  intro hne
  have hlen : 0 < form.files.length := List.length_pos.mpr hne
  simp [hlen]

/-- C7 (witness): the theorem at a concrete successful submission with one
attached file; the toast names one file. -/
theorem C7_success_effects_witness :
    (handleSubmit memberBob formTwoFiles envAllOk).formAfter = initialFormState ∧
    (handleSubmit memberBob formTwoFiles envAllOk).onSuccessCalls = 1 ∧
    (handleSubmit memberBob formTwoFiles envAllOk).dialogClosed = true ∧
    (handleSubmit memberBob formTwoFiles envAllOk).toastSuccess =
      some "Compliance record added successfully with 2 file(s)" := by
  have h := C7_success_effects memberBob formTwoFiles envAllOk "org-1"
    rfl (by decide) (by decide) rfl
  refine ⟨h.1, h.2.2.2.2.2.2.2.2.1, h.2.2.2.2.2.2.2.2.2.1,
    (h.2.2.2.2.2.2.2.2.2.2.2 (by decide)).trans ?_⟩
  decide

/-- C8: on every successful submission the persisted `next_review_date` is
null when no review date was picked, and an ISO calendar date string
(`YYYY-MM-DD`, no time component) when one was picked. -/
theorem C8_review_date (m : OrganisationMember) (form : FormState) (env : Env)
    (orgId : String)
    (h1 : m.organisation_id = some orgId)
    (h2 : ∀ j, j < form.files.length → env.uploadResult j = none)
    (h3 : (if isAdmin m then form.responsiblePerson else memberName m) ≠ "")
    (h4 : env.insertError = none) :
    ∃ r, (handleSubmit m form env).inserted = some r ∧
      (form.nextReviewDate = none → r.next_review_date = none) ∧
      (∀ d, form.nextReviewDate = some d → d.year ≤ 9999 →
        ∃ s, r.next_review_date = some s ∧ isISOCalendarDate s = true) := by
  refine ⟨successRecord m form env orgId, ?_, ?_, ?_⟩
  · simp [handleSubmit_success m form env orgId h1 h2 h3 h4]
  · intro h
    simp [successRecord, recordOf, nextReviewDateField, h]
  · intro d hd _
    refine ⟨String.mk (isoDateChars d), ?_, isISOCalendarDate_isoDateChars d⟩
    have hne := isoDateChars_ne_nil d
    simp [successRecord, recordOf, nextReviewDateField, hd, jsSplitHeadT_toISOString,
      jsOrNull, hne]

/-- C8 (witness): a concrete successful submission with a picked review date
persists the `YYYY-MM-DD` string; the date-shape recogniser accepts it. -/
theorem C8_review_date_witness :
    ∃ r, (handleSubmit memberBob formWithDate envAllOk).inserted = some r ∧
      ∃ s, r.next_review_date = some s ∧ isISOCalendarDate s = true := by
  obtain ⟨r, hr, -, hs⟩ :=
    C8_review_date memberBob formWithDate envAllOk "org-1" rfl (by decide) (by decide) rfl
  exact ⟨r, hr, hs ⟨2026, 3, 7, 13, 5, 9, 42⟩ rfl (by decide)⟩

/-- C10: on every successful submission, empty notes are persisted as null
and non-empty notes are persisted unchanged. -/
theorem C10_notes_null (m : OrganisationMember) (form : FormState) (env : Env)
    (orgId : String)
    (h1 : m.organisation_id = some orgId)
    (h2 : ∀ j, j < form.files.length → env.uploadResult j = none)
    (h3 : (if isAdmin m then form.responsiblePerson else memberName m) ≠ "")
    (h4 : env.insertError = none) :
    ∃ r, (handleSubmit m form env).inserted = some r ∧
      (form.notes = "" → r.notes = none) ∧
      (form.notes ≠ "" → r.notes = some form.notes) := by
  refine ⟨successRecord m form env orgId, ?_, ?_, ?_⟩
  · simp [handleSubmit_success m form env orgId h1 h2 h3 h4]
  · intro h
    simp [successRecord, recordOf, jsOrNull, h]
  · intro h
    simp [successRecord, recordOf, jsOrNull, h]

/-- C10 (witness): concrete successful submissions — one with empty notes
(persisted null) and, via the date form, one with non-empty notes (persisted
unchanged). -/
theorem C10_notes_null_witness :
    (∃ r, (handleSubmit memberBob formTwoFiles envAllOk).inserted = some r ∧
      r.notes = none) ∧
    (∃ r, (handleSubmit memberBob formWithDate envAllOk).inserted = some r ∧
      r.notes = some "check extinguishers") := by
  constructor
  · obtain ⟨r, hr, he, -⟩ :=
      C10_notes_null memberBob formTwoFiles envAllOk "org-1" rfl (by decide) (by decide) rfl
    exact ⟨r, hr, he rfl⟩
  · obtain ⟨r, hr, -, hn⟩ :=
      C10_notes_null memberBob formWithDate envAllOk "org-1" rfl (by decide) (by decide) rfl
    exact ⟨r, hr, hn (by decide)⟩

/-- C9 (counterexample): closing the dialog via the cancel button before any
submission does close it, but the in-memory form state is NOT discarded: the
previously entered compliance item and the file selection persist. -/
theorem C9_counterexample :
    (cancelButtonClick filledDialog).dialogOpen = false ∧
    (cancelButtonClick filledDialog).form.complianceItem = "Fire safety audit" ∧
    (cancelButtonClick filledDialog).form.files = [⟨"evidence.pdf"⟩] ∧
    filledDialog.form ≠ initialFormState := by
  decide

/-- C9 (amended): closing the dialog before a successful submission (via the
close control or the cancel button) closes it but leaves all field values and
the file selection unchanged; the form state is reset (to the initial empty
state) only by `resetForm`, which runs after a successful submission. -/
theorem C9_close_keeps_state (s : DialogState) :
    (closeButtonClick s).form = s.form ∧
    (closeButtonClick s).dialogOpen = false ∧
    (cancelButtonClick s).form = s.form ∧
    (cancelButtonClick s).dialogOpen = false ∧
    resetForm = initialFormState := by
  simp [closeButtonClick, cancelButtonClick, resetForm]

end ComplyHub
